import Mathlib

/-!
Shallow embedding of `src/filesystem.c` (lovedos layered virtual filesystem):
the mount table / overlay engine, the directory-backed mount and the
tar-backed mount, together with proofs about the claims of the spec.

Conventions of the embedding:
* C strings are Lean `String`s (byte lengths via `String.utf8ByteSize`,
  matching `strlen` for the ASCII data the claims are about); tar entry
  names are handled as `List Char` at the archive layer.
* machine `unsigned` arithmetic is `Nat` with explicit `% 4294967296`;
  C `int` results that can be negative are `Int`.
* fallible C functions returning a buffer-or-NULL become `Option`;
  the success/failure `int` protocol becomes `Bool` or `Option`.
* the process-wide mount array `filesystem_mounts[ ]` with its index
  `filesystem_mountIdx` is a `List Mount` held oldest-first (exactly the
  order of the array slots); `FOREACH_MOUNT` walks it newest-first, which
  here is structural recursion over the reversed list.
* external effects (opendir/fopen probes, dmt_malloc, fread) are supplied
  by explicit oracle records; where a claim is about resource handling the
  operation additionally reports which handles it opened and closed.
-/

namespace LoveFS

/-! ### Constants from `filesystem.c` and the (absent) header

`MAX_MOUNTS`, `MAX_PATH` and the file-type enum are from `filesystem.c`.
`FILESYSTEM_ESUCCESS` / `FILESYSTEM_EFAILURE` live in `filesystem.h`,
which is not part of the sources. -/

def MAX_MOUNTS : Nat := 8

def MAX_PATH : Nat := 256

/-- `FILESYSTEM_TNONE` (value 0, first member of the anonymous enum). -/
def FILESYSTEM_TNONE : Int := 0

/-- `FILESYSTEM_TREG` (value 1). -/
def FILESYSTEM_TREG : Int := 1

/-- `FILESYSTEM_TDIR` (value 2). -/
def FILESYSTEM_TDIR : Int := 2

/-- Modelled from the spec: `filesystem.h` is not under `src/`.  The spec
(§7) prescribes a two-valued success/failure outcome, and the Lua binding
(`l_filesystem_mount` etc.) treats any nonzero code as failure, so the
failure code is some fixed nonzero `int`; it is modelled as `-1`.  Every
statement below about the failure code only depends on it being nonzero
(and hence distinct from `FILESYSTEM_TNONE`/`ESUCCESS`, both 0). -/
def FILESYSTEM_EFAILURE : Int := -1

/-- `FILESYSTEM_ESUCCESS` (0): the Lua binding runs `if (err)` on it. -/
def FILESYSTEM_ESUCCESS : Int := 0

/-! ### `hashstr` -/

/-- One step of `hashstr`: `hash = ((hash << 5) + hash) ^ *str++` on a
32-bit `unsigned`. -/
def hashstr_step (h c : Nat) : Nat := (((h <<< 5) + h) % 4294967296) ^^^ c

/-- `hashstr` over an explicit character list (C iterates the bytes of the
name up to the terminating NUL; the claims concern ASCII names, whose
bytes are exactly the `Char.toNat` values). -/
def hashstrL (l : List Char) : Nat :=
  l.foldl (fun h c => hashstr_step h c.toNat) 5381

/-- `hashstr` on a `String`. -/
def hashstr (s : String) : Nat := hashstrL s.data

/-! ### The mount capability record and the mount table

`struct Mount` carries five function pointers and the mount path.  The
`unmount` pointer only releases backend resources; at this level the
"release" of a mount is recorded by returning the `Mount` value whose
`unmount` was invoked, so that theorems can speak about which mounts were
released and in which order. -/

structure Mount where
  exists_ : String → Bool
  isFile : String → Bool
  isDirectory : String → Bool
  read : String → Option (List Nat)
  path : String

/-- The pair `filesystem_mounts` / `filesystem_mountIdx`: the list holds
the active slots `0 .. filesystem_mountIdx-1`, oldest first. -/
structure FSState where
  mounts : List Mount

/-- Loop body of `filesystem_exists`: `FOREACH_MOUNT` handed the mounts
newest-first. -/
def exists_loop (f : String) : List Mount → Bool
  | [] => false
  | m :: rest => if m.exists_ f then true else exists_loop f rest

/-- `filesystem_exists`. -/
def filesystem_exists (st : FSState) (f : String) : Bool :=
  exists_loop f st.mounts.reverse

/-- Loop body of `filesystem_isFile`: the first mount that reports
`exists` answers `isFile`. -/
def isFile_loop (f : String) : List Mount → Bool
  | [] => false
  | m :: rest => if m.exists_ f then m.isFile f else isFile_loop f rest

/-- `filesystem_isFile`. -/
def filesystem_isFile (st : FSState) (f : String) : Bool :=
  isFile_loop f st.mounts.reverse

/-- Loop body of `filesystem_isDirectory`. -/
def isDirectory_loop (f : String) : List Mount → Bool
  | [] => false
  | m :: rest => if m.exists_ f then m.isDirectory f else isDirectory_loop f rest

/-- `filesystem_isDirectory`. -/
def filesystem_isDirectory (st : FSState) (f : String) : Bool :=
  isDirectory_loop f st.mounts.reverse

/-- Loop body of `filesystem_read`: the first mount with
`exists && isFile` supplies the bytes. -/
def read_loop (f : String) : List Mount → Option (List Nat)
  | [] => none
  | m :: rest => if m.exists_ f && m.isFile f then m.read f else read_loop f rest

/-- `filesystem_read` (`*size` is the length of the returned buffer). -/
def filesystem_read (st : FSState) (f : String) : Option (List Nat) :=
  read_loop f st.mounts.reverse

/-- `filesystem_mount`.  The backend constructors `tar_mount`/`dir_mount`
are passed in as the functions that, given the path, either produce the
capability record or fail; the table code then behaves exactly as the C:
length check, duplicate check (over all active mounts), capacity check,
`strcpy` of the path into the slot, then tar first and directory second;
on backend failure `filesystem_mountIdx` is rolled back, so the table is
unchanged. -/
def filesystem_mount (tarTry dirTry : String → Option Mount)
    (st : FSState) (path : String) : FSState × Bool :=
  if MAX_PATH ≤ path.utf8ByteSize then (st, false)
  else if st.mounts.any (fun m => decide (m.path = path)) then (st, false)
  else if MAX_MOUNTS ≤ st.mounts.length then (st, false)
  else
    match tarTry path with
    | some m => (⟨st.mounts ++ [{ m with path := path }]⟩, true)
    | none =>
      match dirTry path with
      | some m => (⟨st.mounts ++ [{ m with path := path }]⟩, true)
      | none => (st, false)

/-- The `FOREACH_MOUNT` search of `filesystem_unmount`, walking
newest-first over the oldest-first list: the branch that recurses on
`rest` first realises the newest-first direction, and removing the found
mount while keeping `rest` is the `memmove` that shifts the later slots
down by one.  Returns the remaining list and the removed mount. -/
def unmount_scan (path : String) : List Mount → Option (List Mount × Mount)
  | [] => none
  | m :: rest =>
    match unmount_scan path rest with
    | some (rest2, found) => some (m :: rest2, found)
    | none => if m.path = path then some (rest, m) else none

/-- `filesystem_unmount`: on success the second component is the mount
whose `unmount` hook was run (its backend resources were released). -/
def filesystem_unmount (st : FSState) (path : String) : FSState × Option Mount :=
  match unmount_scan path st.mounts with
  | some (rest, m) => (⟨rest⟩, some m)
  | none => (st, none)

/-- The `FOREACH_MOUNT` loop of `filesystem_deinit`, collecting the mounts
in the order their `unmount` hooks run (the argument is already reversed,
i.e. newest-first). -/
def deinit_loop : List Mount → List Mount
  | [] => []
  | m :: rest => m :: deinit_loop rest

/-- `filesystem_deinit`: runs every mount's `unmount` newest-first and
resets `filesystem_mountIdx` to 0.  The second component is the release
order. -/
def filesystem_deinit (st : FSState) : FSState × List Mount :=
  (⟨[]⟩, deinit_loop st.mounts.reverse)

/-! ### Directory mount

The directory backend performs real I/O: `opendir`/`fopen` probes,
`fopen`+`fread` for reads, `dmt_malloc` for the buffer.  These externals
are an oracle record.  `get_file_type` deliberately probes by opening
(directory first, then regular file) instead of `stat`. -/

structure DirWorld where
  /-- `opendir(p)` succeeds. -/
  isDir : String → Bool
  /-- `fopen(p, "rb")` succeeds. -/
  isReg : String → Bool
  /-- the bytes `fread` yields for `p` (its length is what
  `fseek(SEEK_END)`/`ftell` report). -/
  contents : String → List Nat
  /-- `dmt_malloc(n)` returns a non-NULL buffer. -/
  allocOk : Nat → Bool

/-- `get_file_type`: `opendir` probe first, then `fopen` probe. -/
def get_file_type (w : DirWorld) (filename : String) : Int :=
  if w.isDir filename then FILESYSTEM_TDIR
  else if w.isReg filename then FILESYSTEM_TREG
  else FILESYSTEM_TNONE

/-- `concat_path`: fails (NULL result) when
`strlen(dir) + strlen(filename) + 2 > MAX_PATH`; otherwise inserts `"/"`
only when `dir` does not already end with it.  (The C reads
`dir[dirlen-1]`, undefined for an empty `dir`; an empty string never
becomes a mount path because both backends reject it, and the last-byte
test is modelled as the last character being `'/'`.) -/
def concat_path (dir filename : String) : Option String :=
  if MAX_PATH < dir.utf8ByteSize + filename.utf8ByteSize + 2 then none
  else if dir.data.getLast? = some '/' then some (dir ++ filename)
  else some (dir ++ "/" ++ filename)

/-- `concat_and_get_file_type`, together with the list of paths actually
probed (`opendir`/`fopen` both touch the single concatenated path).  On
concatenation overflow the C `return err` hands the failure code back in
the *type* channel — kept here exactly as written. -/
def concat_and_get_file_type (w : DirWorld) (dir filename : String) :
    Int × List String :=
  match concat_path dir filename with
  | none => (FILESYSTEM_EFAILURE, [])
  | some p => (get_file_type w p, [p])

/-- `dir_exists`: `concat_and_get_file_type(...) != FILESYSTEM_TNONE`. -/
def dir_exists (w : DirWorld) (mntPath filename : String) : Bool :=
  (concat_and_get_file_type w mntPath filename).1 != FILESYSTEM_TNONE

/-- `dir_isFile`: `... == FILESYSTEM_TREG`. -/
def dir_isFile (w : DirWorld) (mntPath filename : String) : Bool :=
  (concat_and_get_file_type w mntPath filename).1 == FILESYSTEM_TREG

/-- `dir_isDirectory`: `... == FILESYSTEM_TDIR`. -/
def dir_isDirectory (w : DirWorld) (mntPath filename : String) : Bool :=
  (concat_and_get_file_type w mntPath filename).1 == FILESYSTEM_TDIR

/-- `dir_read`, with its handle traffic: result, list of paths whose
`FILE*` was opened, list of paths whose `FILE*` was closed.  The C
function contains no `fclose` at all, so the third component is empty on
every path — including the allocation-failure branch, which returns NULL
with the file still open. -/
def dir_read (w : DirWorld) (mntPath filename : String) :
    Option (List Nat) × List String × List String :=
  match concat_path mntPath filename with
  | none => (none, [], [])
  | some p =>
    if w.isReg p then
      if w.allocOk (w.contents p).length then (some (w.contents p), [p], [])
      else (none, [p], [])
    else (none, [], [])

/-- `dir_mount`: requires the path to be a directory, then installs the
capability set. -/
def dir_mount (w : DirWorld) (path : String) : Option Mount :=
  if get_file_type w path = FILESYSTEM_TDIR then
    some
      { exists_ := fun f => dir_exists w path f
        isFile := fun f => dir_isFile w path f
        isDirectory := fun f => dir_isDirectory w path f
        read := fun f => (dir_read w path f).1
        path := path }
  else none

/-! ### Tar mount: the index and `tar_find`

The microtar decoder lives in `lib/microtar/`, outside the sources; the
spec (§1) treats it as a collaborator exposing read-header / next /
seek / read-data.  At the lookup layer an archive is therefore modelled
as the list of entry headers the decoder yields during the mount-time
scan, and a seek position (`tar->pos`) is the index of the entry it
addresses, so that "seek to `map[i].pos` and re-read the header" is a
list lookup. -/

/-- Modelled from the spec: `MTAR_TREG`, the decoder's regular-file type
flag (`'0'` in the tar format). -/
def MTAR_TREG : Nat := 48

/-- Modelled from the spec: `MTAR_TDIR`, the decoder's directory type
flag (`'5'`). -/
def MTAR_TDIR : Nat := 53

/-- One decoded entry header (`mtar_header_t`) plus the data bytes behind
it, which is what `mtar_read_data` streams. -/
structure TarHeaderM where
  name : List Char
  type : Nat
  size : Nat
  data : List Nat
deriving DecidableEq

/-- Strip a single trailing `/` from a stored name, exactly as the lines
`if (len > 0 && h->name[len-1] == '/') h->name[len-1] = 0;` do. -/
def stripSlashL (l : List Char) : List Char :=
  if l.getLast? = some '/' then l.dropLast else l

/-- The scan loop of `tar_mount`: append `(hashstr(h.name), tar->pos)`
for every entry, advancing the position.  (The geometric `dmt_realloc`
growth of the backing array is memory management with no observable
content; the list is the resulting index.) -/
def tar_scan_loop : Nat → List TarHeaderM → List (Nat × Nat)
  | _, [] => []
  | pos, e :: rest => (hashstrL e.name, pos) :: tar_scan_loop (pos + 1) rest

/-- The completed index of a mounted archive. -/
def tar_scan_map (entries : List TarHeaderM) : List (Nat × Nat) :=
  tar_scan_loop 0 entries

/-- The `TarMount` state reachable from `tar_find`: the archive (as the
decoder presents it) and the `[namehash:position]` map. -/
structure TarMountM where
  entries : List TarHeaderM
  map : List (Nat × Nat)

/-- The linear search of `tar_find`: on a hash match, seek to the
recorded position, re-read the header, strip the trailing `/` and compare
against the query; first exact match wins.  (The C ignores the error code
of the re-read; positions recorded by the scan are always valid, and an
out-of-range position is modelled as a skip.) -/
def tar_find_loop (entries : List TarHeaderM) (hq : Nat) (q : List Char) :
    List (Nat × Nat) → Option TarHeaderM
  | [] => none
  | (h, pos) :: rest =>
    if h = hq then
      match entries[pos]? with
      | some e =>
        if stripSlashL e.name = q then some { e with name := stripSlashL e.name }
        else tar_find_loop entries hq q rest
      | none => tar_find_loop entries hq q rest
    else tar_find_loop entries hq q rest

/-- `tar_find`. -/
def tar_find (tm : TarMountM) (q : List Char) : Option TarHeaderM :=
  tar_find_loop tm.entries (hashstrL q) q tm.map

/-- `tar_exists`. -/
def tar_exists (tm : TarMountM) (q : List Char) : Bool :=
  (tar_find tm q).isSome

/-- `tar_isFile`. -/
def tar_isFile (tm : TarMountM) (q : List Char) : Bool :=
  match tar_find tm q with
  | some h => h.type == MTAR_TREG
  | none => false

/-- `tar_isDirectory`. -/
def tar_isDirectory (tm : TarMountM) (q : List Char) : Bool :=
  match tar_find tm q with
  | some h => h.type == MTAR_TDIR
  | none => false

/-- `tar_read`: find the header, allocate `h.size` bytes, stream the data
(`mtar_read_data` fails unless exactly `h.size` bytes arrive, and then
the partial buffer is freed). -/
def tar_read (tm : TarMountM) (q : List Char) : Option (List Nat) :=
  match tar_find tm q with
  | some h => if h.data.length = h.size then some h.data else none
  | none => none

/-- The predicate a stored entry must satisfy for `tar_find(q)` to select
it: its *unstripped* name hashes like the query (that is what the scan
recorded) and its *stripped* name equals the query. -/
def tarEntryMatches (hq : Nat) (q : List Char) (e : TarHeaderM) : Bool :=
  decide (hashstrL e.name = hq) && decide (stripSlashL e.name = q)

/-! ### Tar mount: byte-level open protocol (`tar_mount`)

The trailing-offset discovery of `tar_mount` works on the raw byte file,
below the decoder: read the last 8 bytes, compare the first 4 against
`"TAR\0"` (bytes 84 65 82 0), interpret the next 4 as a little-endian
`int`, and seek that far back from the end.  What the decoder sees from a
base offset `b` is the byte suffix `file.drop b` (every
`tar_stream_seek(off)` goes to `tm->offset + off`), so the collaborator
header-read is a function of that suffix. -/

/-- Little-endian decode of 4 bytes, as `fread(&offset, 1, 4, fp)` does
on the (little-endian) reference targets. -/
def le32_dec (bs : List Nat) : Nat :=
  match bs with
  | [b0, b1, b2, b3] => b0 + 256 * b1 + 65536 * b2 + 16777216 * b3
  | _ => 0

/-- Little-endian encode of a 32-bit value (how `package.c` wrote it). -/
def le32_enc (v : Nat) : List Nat :=
  [v % 256, v / 256 % 256, v / 65536 % 256, v / 16777216 % 256]

/-- The 4-byte pattern read back as a C `int`. -/
def as_c_int (u : Nat) : Int :=
  if u < 2147483648 then (u : Int) else (u : Int) - 4294967296

/-- The header-checking phase of `tar_mount`, computing the committed
base offset (`tm->offset`) or failure.  `rh` is the collaborator
"read one entry header at the start of this stream" (`mtar_read_header`
after a rewind); `rh (file.drop b)` is its outcome when the recorded base
offset is `b`.

Branches, exactly as in the C: a good header at offset 0 commits base 0;
otherwise the last 8 bytes are read (a file shorter than 8 bytes fails
the `fseek(-8, SEEK_END)` and cannot match the tag), and only a matching
`"TAR\0"` tag moves the base to `fseek(-offset, SEEK_END); ftell(fp)` —
which is `size - offset` when that seek lands inside the file, and leaves
the cursor at the footer end (`size`) when the seek is rejected; the
header read is then retried at the base, and a second failure aborts the
mount. -/
def tar_mount_base (rh : List Nat → Option Unit) (file : List Nat) : Option Nat :=
  match rh file with
  | some _ => some 0
  | none =>
    let n := file.length
    let tail8 := file.drop (n - 8)
    let off := as_c_int (le32_dec (tail8.drop 4))
    let base : Nat :=
      if 8 ≤ n ∧ tail8.take 4 = [84, 65, 82, 0] then
        (if 0 ≤ (n : Int) - off then ((n : Int) - off).toNat else n)
      else 0
    match rh (file.drop base) with
    | some _ => some base
    | none => none

/-- `tar_mount` with its resource balance: the result plus
`(opened, closed)` file handles and `(allocated, freed)` `TarMount`
records.  `openOk` is whether `fopen(path, "rb")` succeeds.  On the
`fail:` label the C closes `fp` and frees `tm->map` (still NULL before
the scan) and `tm`; on success the handle and record are owned by the
committed mount. -/
def tar_mount (rh : List Nat → Option Unit) (openOk : Bool) (file : List Nat) :
    Option Nat × (Nat × Nat) × (Nat × Nat) :=
  if openOk then
    match tar_mount_base rh file with
    | some base => (some base, (1, 0), (1, 0))
    | none => (none, (1, 1), (1, 1))
  else (none, (0, 0), (0, 0))

/-! ### Concrete instances used by witnesses and counterexamples -/

/-- An older mount carrying `"d"` as a directory. -/
def c1dirD : Mount :=
  { exists_ := fun f => f == "d"
    isFile := fun _ => false
    isDirectory := fun f => f == "d"
    read := fun _ => none
    path := "A" }

/-- A newer mount carrying `"d"` as a regular file. -/
def c1fileD : Mount :=
  { exists_ := fun f => f == "d"
    isFile := fun f => f == "d"
    isDirectory := fun _ => false
    read := fun f => if f == "d" then some [120] else none
    path := "B" }

/-- A mount that reports nothing at all. -/
def c1none : Mount :=
  { exists_ := fun _ => false
    isFile := fun _ => false
    isDirectory := fun _ => false
    read := fun _ => none
    path := "N" }

/-- A mount holding the file `"x"` with bytes `[7]`. -/
def c2m : Mount :=
  { exists_ := fun f => f == "x"
    isFile := fun f => f == "x"
    isDirectory := fun _ => false
    read := fun f => if f == "x" then some [7] else none
    path := "M" }

/-- A featureless mount with a given path. -/
def c3m (p : String) : Mount :=
  { exists_ := fun _ => false
    isFile := fun _ => false
    isDirectory := fun _ => false
    read := fun _ => none
    path := p }

/-- A backend constructor that always succeeds. -/
def c3try : String → Option Mount := fun p => some (c3m p)

/-- A full mount table (8 = `MAX_MOUNTS` active mounts). -/
def c3full : FSState :=
  ⟨[c3m "1", c3m "2", c3m "3", c3m "4", c3m "5", c3m "6", c3m "7", c3m "8"]⟩

/-- Mounts A, B, C for the unmount-preserves-order scenario. -/
def c4A : Mount := c3m "A"

/-- Middle mount of the scenario. -/
def c4B : Mount := c3m "B"

/-- Newest mount of the scenario. -/
def c4C : Mount := c3m "C"

/-- The archive bytes appended behind prefix data in the trailing-offset
scenario. -/
def c5arc : List Nat := [1, 2, 3]

/-- A concrete collaborator header-read: succeeds exactly when the stream
starts with the appended archive-plus-footer. -/
def c5rh : List Nat → Option Unit :=
  fun l => if l = c5arc ++ ([84, 65, 82, 0] ++ le32_enc 11) then some () else none

/-- First colliding entry: `hashstr "jgmosyl" = hashstr "dtjdxvcz"
= 3700755756`, while the names differ. -/
def c6e1 : TarHeaderM :=
  { name := ['j', 'g', 'm', 'o', 's', 'y', 'l'], type := MTAR_TREG, size := 1, data := [10] }

/-- Second colliding entry. -/
def c6e2 : TarHeaderM :=
  { name := ['d', 't', 'j', 'd', 'x', 'v', 'c', 'z'], type := MTAR_TREG, size := 1, data := [20] }

/-- A world where nothing exists and every allocation fails. -/
def c7w : DirWorld :=
  { isDir := fun _ => false
    isReg := fun _ => false
    contents := fun _ => []
    allocOk := fun _ => false }

/-- A mountable root of maximal legal length (255 bytes, accepted by
`filesystem_mount` since `strlen < MAX_PATH`), for which even the empty
relative name overflows `concat_path`. -/
def c7root : String := String.mk (List.replicate 255 'a')

/-- A world where every `fopen` succeeds, files hold `[1, 2, 3]` and
`dmt_malloc` always fails. -/
def c8w : DirWorld :=
  { isDir := fun _ => false
    isReg := fun _ => true
    contents := fun _ => [1, 2, 3]
    allocOk := fun _ => false }

/-- An archive whose only entry is the directory entry stored as `"d/"`. -/
def c10entry : TarHeaderM :=
  { name := ['d', '/'], type := MTAR_TDIR, size := 0, data := [] }

/-! ### Overlay dispatch: `isFile` / `isDirectory` / `read` resolution -/

theorem isFile_loop_find (f : String) : ∀ l : List Mount,
    isFile_loop f l
      = ((l.find? (fun m => m.exists_ f)).map (fun m => m.isFile f)).getD false := by
  intro l
  induction l with
  | nil => rfl
  | cons m rest ih =>
    by_cases h : m.exists_ f
    · simp [isFile_loop, h, List.find?_cons_of_pos _ h]
    · rw [isFile_loop, if_neg (by simp [h]), ih,
        List.find?_cons_of_neg _ (by simp [h])]

theorem isDirectory_loop_find (f : String) : ∀ l : List Mount,
    isDirectory_loop f l
      = ((l.find? (fun m => m.exists_ f)).map (fun m => m.isDirectory f)).getD false := by
  intro l
  induction l with
  | nil => rfl
  | cons m rest ih =>
    by_cases h : m.exists_ f
    · simp [isDirectory_loop, h, List.find?_cons_of_pos _ h]
    · rw [isDirectory_loop, if_neg (by simp [h]), ih,
        List.find?_cons_of_neg _ (by simp [h])]

theorem read_loop_find (f : String) : ∀ l : List Mount,
    read_loop f l
      = (l.find? (fun m => m.exists_ f && m.isFile f)).bind (fun m => m.read f) := by
  intro l
  induction l with
  | nil => rfl
  | cons m rest ih =>
    by_cases h : (m.exists_ f && m.isFile f) = true
    · simp [read_loop, h, List.find?_cons_of_pos _ h]
    · rw [read_loop, if_neg (by simp at h ⊢; tauto), ih,
        List.find?_cons_of_neg _ (by simpa using h)]

/-- C1: For every query name, `filesystem_isFile` and
`filesystem_isDirectory` resolve against exactly one mount — the
newest-first mount whose `exists` reports true — and return that mount's
own classification; with no such mount they return false; and in the
concrete two-mount overlay where the older mount has `"d"` as a directory
and the newer as a file, `isDirectory "d"` is false while `isFile "d"` is
true. -/
theorem typeQuery_resolution (st : FSState) (f : String) :
    filesystem_isFile st f
      = ((st.mounts.reverse.find? (fun m => m.exists_ f)).map
          (fun m => m.isFile f)).getD false
    ∧ filesystem_isDirectory st f
      = ((st.mounts.reverse.find? (fun m => m.exists_ f)).map
          (fun m => m.isDirectory f)).getD false
    ∧ ((∀ m ∈ st.mounts, m.exists_ f = false) →
        filesystem_isFile st f = false ∧ filesystem_isDirectory st f = false)
    ∧ (filesystem_isDirectory ⟨[c1dirD, c1fileD]⟩ "d" = false
       ∧ filesystem_isFile ⟨[c1dirD, c1fileD]⟩ "d" = true) := by
  refine ⟨isFile_loop_find f _, isDirectory_loop_find f _, ?_, by decide⟩
  intro hnone
  have hfind : st.mounts.reverse.find? (fun m => m.exists_ f) = none := by
    rw [List.find?_eq_none]
    intro m hm
    simp [hnone m (List.mem_reverse.mp hm)]
  constructor
  · rw [filesystem_isFile, isFile_loop_find, hfind]; rfl
  · rw [filesystem_isDirectory, isDirectory_loop_find, hfind]; rfl

theorem typeQuery_resolution_inst :
    filesystem_isFile ⟨[c1none]⟩ "x" = false
    ∧ filesystem_isDirectory ⟨[c1none]⟩ "x" = false :=
  (typeQuery_resolution ⟨[c1none]⟩ "x").2.2.1 (by decide)

/-- C2: `filesystem_read` returns the bytes of the first mount in
newest-first order satisfying both `exists` and `isFile` (mounts where
the name exists but is not a file are skipped), and fails exactly when no
mount satisfies both or when that resolving mount's own read fails. -/
theorem read_resolution (st : FSState) (f : String) :
    filesystem_read st f
      = (st.mounts.reverse.find? (fun m => m.exists_ f && m.isFile f)).bind
          (fun m => m.read f)
    ∧ (filesystem_read st f = none ↔
        (st.mounts.reverse.find? (fun m => m.exists_ f && m.isFile f) = none
         ∨ ∃ m, st.mounts.reverse.find? (fun m => m.exists_ f && m.isFile f) = some m
             ∧ m.read f = none)) := by
  refine ⟨read_loop_find f _, ?_⟩
  rw [filesystem_read, read_loop_find f]
  cases hfind : st.mounts.reverse.find? (fun m => m.exists_ f && m.isFile f) with
  | none => simp
  | some m => simp

theorem read_resolution_inst : filesystem_read ⟨[c2m]⟩ "x" = some [7] :=
  (read_resolution ⟨[c2m]⟩ "x").1.trans rfl

/-! ### Teardown -/

theorem deinit_loop_id : ∀ l : List Mount, deinit_loop l = l := by
  intro l
  induction l with
  | nil => rfl
  | cons m rest ih => rw [deinit_loop, ih]

/-- C9: `filesystem_deinit` releases every active mount in newest-first
order and empties the table, and a second call releases nothing and
leaves the table empty. -/
theorem deinit_spec (st : FSState) :
    (filesystem_deinit st).1.mounts = []
    ∧ (filesystem_deinit st).2 = st.mounts.reverse
    ∧ filesystem_deinit (filesystem_deinit st).1 = (⟨[]⟩, []) := by
  refine ⟨rfl, deinit_loop_id _, rfl⟩

/-! ### Mounting -/

/-- C3: `filesystem_mount` fails with the table observably unchanged
whenever the path length reaches the bound, the exact path is already
mounted, the table holds `MAX_MOUNTS` mounts, or both backend
constructions fail; and after any successful mount of a path, mounting
the same path again fails with the table unchanged. -/
theorem mount_failure_unchanged (tarTry dirTry : String → Option Mount)
    (st : FSState) (path : String) :
    ((MAX_PATH ≤ path.utf8ByteSize
      ∨ st.mounts.any (fun m => decide (m.path = path)) = true
      ∨ MAX_MOUNTS ≤ st.mounts.length
      ∨ (tarTry path = none ∧ dirTry path = none)) →
      filesystem_mount tarTry dirTry st path = (st, false))
    ∧ (∀ st2 : FSState, filesystem_mount tarTry dirTry st path = (st2, true) →
        filesystem_mount tarTry dirTry st2 path = (st2, false)) := by
  constructor
  · intro h
    unfold filesystem_mount
    split_ifs with h1 h2 h3
    · rfl
    · rfl
    · rfl
    · rcases h with h | h | h | ⟨ht, hd⟩
      · exact absurd h h1
      · exact absurd h h2
      · exact absurd h h3
      · rw [ht, hd]
  · intro st2 h
    unfold filesystem_mount at h
    split_ifs at h with h1 h2 h3
    · exact absurd h (by simp)
    · exact absurd h (by simp)
    · exact absurd h (by simp)
    · cases htar : tarTry path with
      | some m =>
        rw [htar] at h
        have hst2 : st2 = ⟨st.mounts ++ [{ m with path := path }]⟩ :=
          (congrArg Prod.fst h).symm
        subst hst2
        unfold filesystem_mount
        rw [if_neg h1, if_pos (by simp)]
      | none =>
        rw [htar] at h
        cases hdir : dirTry path with
        | some m =>
          rw [hdir] at h
          have hst2 : st2 = ⟨st.mounts ++ [{ m with path := path }]⟩ :=
            (congrArg Prod.fst h).symm
          subst hst2
          unfold filesystem_mount
          rw [if_neg h1, if_pos (by simp)]
        | none =>
          rw [hdir] at h
          exact absurd h (by simp)

theorem mount_failure_unchanged_inst :
    filesystem_mount c3try c3try c3full "9" = (c3full, false)
    ∧ filesystem_mount c3try c3try ⟨[c3m "p"]⟩ "p" = (⟨[c3m "p"]⟩, false) :=
  ⟨(mount_failure_unchanged c3try c3try c3full "9").1
      (Or.inr (Or.inr (Or.inl (by decide)))),
   (mount_failure_unchanged c3try c3try ⟨[c3m "p"]⟩ "p").1
      (Or.inr (Or.inl (by decide)))⟩

/-! ### Unmounting -/

theorem unmount_scan_none (path : String) : ∀ l : List Mount,
    (∀ m ∈ l, m.path ≠ path) → unmount_scan path l = none := by
  intro l
  induction l with
  | nil => intro _; rfl
  | cons m rest ih =>
    intro h
    have hrest := ih (fun m2 hm2 => h m2 (List.mem_cons_of_mem _ hm2))
    simp [unmount_scan, hrest, h m (List.mem_cons_self _ _)]

theorem unmount_scan_found : ∀ (pre post : List Mount) (m : Mount) (path : String),
    m.path = path → (∀ m2 ∈ post, m2.path ≠ path) →
    unmount_scan path (pre ++ m :: post) = some (pre ++ post, m) := by
  intro pre
  induction pre with
  | nil =>
    intro post m path hm hpost
    simp [unmount_scan, unmount_scan_none path post hpost, hm]
  | cons a pre ih =>
    intro post m path hm hpost
    simp [unmount_scan, ih post m path hm hpost]

/-- C4: `filesystem_unmount` fails exactly when no active mount has the
path; when the mount is present (as the newest match — with the table's
path-uniqueness invariant, the only one), its backend resources are
released (its `unmount` hook runs, reported as the second component), it
is removed with the relative order of all other mounts preserved, and the
size drops by one — whether it is the newest, oldest or a middle
element. -/
theorem unmount_spec (st : FSState) (path : String)
    (pre post : List Mount) (m : Mount) :
    ((∀ m2 ∈ st.mounts, m2.path ≠ path) → filesystem_unmount st path = (st, none))
    ∧ (m.path = path → (∀ m2 ∈ post, m2.path ≠ path) →
        filesystem_unmount ⟨pre ++ m :: post⟩ path = (⟨pre ++ post⟩, some m)) := by
  constructor
  · intro h
    rw [filesystem_unmount, unmount_scan_none path st.mounts h]
  · intro hm hpost
    show (match unmount_scan path (pre ++ m :: post) with
      | some (rest, m2) => (⟨rest⟩, some m2)
      | none => (⟨pre ++ m :: post⟩, none)) = ((⟨pre ++ post⟩ : FSState), some m)
    rw [unmount_scan_found pre post m path hm hpost]

/-- After mounting A, B, C the middle mount B is removed, B is the
released mount, and the remaining order is A then C — so queries shadow
newest-first in order C then A. -/
theorem unmount_spec_inst :
    filesystem_unmount ⟨[c4A, c4B, c4C]⟩ "B" = (⟨[c4A, c4C]⟩, some c4B) :=
  (unmount_spec ⟨[]⟩ "B" [c4A] [c4C] c4B).2 rfl (by decide)

/-! ### The hash: appending a `/` flips the parity of `hashstr`

`hash' = (33 * hash mod 2^32) xor 47`: multiplying by 33 preserves the
low bit, xoring with the odd constant 47 flips it.  Hence a stored name
with one more trailing `/` than the query can never pass the hash test of
`tar_find`. -/

theorem hashstr_step_parity (h : Nat) : hashstr_step h 47 % 2 ≠ h % 2 := by
  unfold hashstr_step
  set a := ((h <<< 5) + h) % 4294967296 with hadef
  have ha : a % 2 = h % 2 := by
    rw [hadef, Nat.mod_mod_of_dvd _ (by norm_num), Nat.shiftLeft_eq]
    omega
  have hbit : (a ^^^ 47).testBit 0 = !a.testBit 0 := by
    rw [Nat.testBit_xor]
    simp [Nat.testBit_zero]
  rw [Nat.testBit_zero, Nat.testBit_zero] at hbit
  intro hcontra
  have heq : (a ^^^ 47) % 2 = a % 2 := by rw [hcontra, ha]
  rw [heq] at hbit
  cases hd : decide (a % 2 = 1) <;> rw [hd] at hbit <;> simp at hbit

theorem hashstrL_append_slash (l : List Char) :
    hashstrL (l ++ ['/']) ≠ hashstrL l := by
  have hstep : hashstrL (l ++ ['/']) = hashstr_step (hashstrL l) 47 := by
    rw [hashstrL, List.foldl_append]
    rfl
  rw [hstep]
  intro hcontra
  exact hashstr_step_parity (hashstrL l) (by rw [hcontra])

/-! ### `tar_find` against the scan-built index -/

theorem getElem?_append_len (pre post : List TarHeaderM) (e : TarHeaderM) :
    (pre ++ e :: post)[pre.length]? = some e := by
  induction pre with
  | nil => simp
  | cons a t ih => simpa using ih

theorem tar_find_loop_scan (q : List Char) (hq : Nat) :
    ∀ (rest pre : List TarHeaderM),
    tar_find_loop (pre ++ rest) hq q (tar_scan_loop pre.length rest)
      = (rest.find? (tarEntryMatches hq q)).map
          (fun e => { e with name := stripSlashL e.name }) := by
  intro rest
  induction rest with
  | nil => intro pre; rfl
  | cons e rest ih =>
    intro pre
    have hget : (pre ++ e :: rest)[pre.length]? = some e := getElem?_append_len pre rest e
    have hassoc : pre ++ e :: rest = (pre ++ [e]) ++ rest := by simp
    have hlen : pre.length + 1 = (pre ++ [e]).length := by simp
    by_cases hh : hashstrL e.name = hq
    · by_cases hn : stripSlashL e.name = q
      · have hpred : tarEntryMatches hq q e = true := by simp [tarEntryMatches, hh, hn]
        rw [List.find?_cons_of_pos _ hpred]
        simp [tar_scan_loop, tar_find_loop, hget, hh, hn]
      · have hpred : tarEntryMatches hq q e = false := by simp [tarEntryMatches, hn]
        have ihh := ih (pre ++ [e])
        rw [← hassoc, ← hlen] at ihh
        rw [List.find?_cons_of_neg _ (by simp [hpred])]
        simp [tar_scan_loop, tar_find_loop, hget, hh, hn, ihh]
    · have hpred : tarEntryMatches hq q e = false := by simp [tarEntryMatches, hh]
      have ihh := ih (pre ++ [e])
      rw [← hassoc, ← hlen] at ihh
      rw [List.find?_cons_of_neg _ (by simp [hpred])]
      simp [tar_scan_loop, tar_find_loop, hh, ihh]

theorem tar_find_mounted_eq (entries : List TarHeaderM) (q : List Char) :
    tar_find ⟨entries, tar_scan_map entries⟩ q
      = (entries.find? (tarEntryMatches (hashstrL q) q)).map
          (fun e => { e with name := stripSlashL e.name }) := by
  have h := tar_find_loop_scan q (hashstrL q) entries []
  simpa [tar_find, tar_scan_map] using h

/-- C6: `tar_find` hashes the query, linearly scans the index for entries
with an equal stored hash, re-reads each hash-matching header, strips a
single trailing separator from the stored name and compares it exactly
with the query; the first exact match in scan order wins, and no matching
candidate means not-found (the characterisation as `find?` over the
entries).  Consequently two entries whose names hash identically but
differ as strings are each returned correctly when queried by their exact
names. -/
theorem tarFind_spec (entries : List TarHeaderM) (q : List Char) :
    tar_find ⟨entries, tar_scan_map entries⟩ q
      = (entries.find? (tarEntryMatches (hashstrL q) q)).map
          (fun e => { e with name := stripSlashL e.name })
    ∧ (∀ e1 e2 : TarHeaderM,
        hashstrL e1.name = hashstrL e2.name → e1.name ≠ e2.name →
        e1.name.getLast? ≠ some '/' → e2.name.getLast? ≠ some '/' →
        tar_find ⟨[e1, e2], tar_scan_map [e1, e2]⟩ e1.name = some e1
        ∧ tar_find ⟨[e1, e2], tar_scan_map [e1, e2]⟩ e2.name = some e2) := by
  refine ⟨tar_find_mounted_eq entries q, ?_⟩
  intro e1 e2 hhash hne hs1 hs2
  have hstrip1 : stripSlashL e1.name = e1.name := by rw [stripSlashL, if_neg hs1]
  have hstrip2 : stripSlashL e2.name = e2.name := by rw [stripSlashL, if_neg hs2]
  constructor
  · rw [tar_find_mounted_eq]
    have hpred : tarEntryMatches (hashstrL e1.name) e1.name e1 = true := by
      simp [tarEntryMatches, hstrip1]
    rw [List.find?_cons_of_pos _ hpred]
    simp [hstrip1]
  · rw [tar_find_mounted_eq]
    have hpred1 : tarEntryMatches (hashstrL e2.name) e2.name e1 = false := by
      simp [tarEntryMatches, hstrip1, hhash, hne]
    have hpred2 : tarEntryMatches (hashstrL e2.name) e2.name e2 = true := by
      simp [tarEntryMatches, hstrip2]
    rw [List.find?_cons_of_neg _ (by simp [hpred1]), List.find?_cons_of_pos _ hpred2]
    simp [hstrip2]

theorem tarFind_spec_inst :
    tar_find ⟨[c6e1, c6e2], tar_scan_map [c6e1, c6e2]⟩ c6e1.name = some c6e1
    ∧ tar_find ⟨[c6e1, c6e2], tar_scan_map [c6e1, c6e2]⟩ c6e2.name = some c6e2 :=
  (tarFind_spec [c6e1, c6e2] c6e1.name).2 c6e1 c6e2
    (by decide) (by decide) (by decide) (by decide)

/-! ### Trailing-separator queries against the archive -/

theorem eq_dropLast_concat_of_getLast? : ∀ (l : List Char) (c : Char),
    l.getLast? = some c → l = l.dropLast ++ [c] := by
  intro l c h
  have hne : l ≠ [] := by
    intro he
    rw [he] at h
    simp at h
  have h2 := List.dropLast_append_getLast hne
  have h3 : l.getLast hne = c := by
    rw [List.getLast?_eq_getLast l hne] at h
    exact Option.some.inj h
  rw [← h3]
  exact h2.symm

/-- C10 (amended): for every archive mount and every query name ending in
the path separator, the archive backend reports not-found for `exists`,
`isFile`, `isDirectory` and `read`, even when an entry stores exactly
that name, because the single trailing separator is stripped from the
stored name and never from the query; however, a directory entry stored
as `"d/"` is *not* reachable by the query `"d"` either — the index hash
was computed over the unstripped stored name, so no query at all reaches
such an entry. -/
theorem tarFind_trailing_slash_query (entries : List TarHeaderM) (q : List Char)
    (hq : q.getLast? = some '/') :
    (tar_exists ⟨entries, tar_scan_map entries⟩ q = false
     ∧ tar_isFile ⟨entries, tar_scan_map entries⟩ q = false
     ∧ tar_isDirectory ⟨entries, tar_scan_map entries⟩ q = false
     ∧ tar_read ⟨entries, tar_scan_map entries⟩ q = none)
    ∧ (∀ q2 : List Char, tar_find ⟨[c10entry], tar_scan_map [c10entry]⟩ q2 = none) := by
  have hfind : tar_find ⟨entries, tar_scan_map entries⟩ q = none := by
    rw [tar_find_mounted_eq]
    have hnone : entries.find? (tarEntryMatches (hashstrL q) q) = none := by
      rw [List.find?_eq_none]
      intro e _
      intro hmatch
      have hh : hashstrL e.name = hashstrL q ∧ stripSlashL e.name = q := by
        simpa [tarEntryMatches] using hmatch
      obtain ⟨hh1, hh2⟩ := hh
      by_cases hel : e.name.getLast? = some '/'
      · have hd : e.name.dropLast = q := by
          rw [stripSlashL, if_pos hel] at hh2
          exact hh2
        have hname : e.name = q ++ ['/'] := by
          have h5 := eq_dropLast_concat_of_getLast? e.name '/' hel
          rw [hd] at h5
          exact h5
        rw [hname] at hh1
        exact hashstrL_append_slash q hh1
      · rw [stripSlashL, if_neg hel] at hh2
        rw [hh2] at hel
        exact hel hq
    rw [hnone]
    rfl
  refine ⟨⟨?_, ?_, ?_, ?_⟩, ?_⟩
  · simp [tar_exists, hfind]
  · simp [tar_isFile, hfind]
  · simp [tar_isDirectory, hfind]
  · simp [tar_read, hfind]
  · intro q2
    rw [tar_find_mounted_eq]
    have hnone : List.find? (tarEntryMatches (hashstrL q2) q2) [c10entry] = none := by
      rw [List.find?_eq_none]
      intro e he
      have he2 : e = c10entry := by simpa using he
      subst he2
      intro hmatch
      have hh : hashstrL c10entry.name = hashstrL q2 ∧ stripSlashL c10entry.name = q2 := by
        simpa [tarEntryMatches] using hmatch
      obtain ⟨hh1, hh2⟩ := hh
      have hstrip : stripSlashL c10entry.name = ['d'] := by decide
      rw [hstrip] at hh2
      rw [← hh2] at hh1
      exact hashstrL_append_slash ['d'] hh1
    rw [hnone]
    rfl

theorem tarFind_trailing_slash_query_inst :
    tar_exists ⟨[c10entry], tar_scan_map [c10entry]⟩ ['d', '/'] = false
    ∧ tar_isFile ⟨[c10entry], tar_scan_map [c10entry]⟩ ['d', '/'] = false
    ∧ tar_isDirectory ⟨[c10entry], tar_scan_map [c10entry]⟩ ['d', '/'] = false
    ∧ tar_read ⟨[c10entry], tar_scan_map [c10entry]⟩ ['d', '/'] = none :=
  (tarFind_trailing_slash_query [c10entry] ['d', '/'] (by decide)).1

/-- C10 counterexample to the claim as stated: the archive whose only
entry is the directory entry stored as `"d/"` does *not* answer the query
`"d"` — the scan hashed the unstripped name `"d/"`, the query hashes
`"d"`, and appending `/` flips the hash parity, so the hash test already
fails; the entry is reachable by no query at all, not "only by `d`". -/
theorem tarDirEntry_not_reachable :
    tar_exists ⟨[c10entry], tar_scan_map [c10entry]⟩ ['d'] = false
    ∧ tar_isDirectory ⟨[c10entry], tar_scan_map [c10entry]⟩ ['d'] = false
    ∧ tar_find ⟨[c10entry], tar_scan_map [c10entry]⟩ ['d'] = none := by
  decide

/-! ### Trailing-offset discovery -/

/-- C5: when the header read at offset 0 fails, `tar_mount` reads the
last 8 bytes as a 4-byte tag and a 4-byte integer; exactly when the tag
is `"TAR\0"` it records end-of-file minus the integer as the base offset
and retries relative to that base.  A file of arbitrary prefix data, a
valid archive and a correct footer therefore mounts with base equal to
the prefix length — the decoder then sees exactly the appended archive,
so every entry is discoverable — while the same file with a corrupted
sentinel tag fails to mount, the failing retry releasing the opened
handle and the allocated record. -/
theorem tarMount_trailing_offset (rh : List Nat → Option Unit)
    (pre A tag2 : List Nat) (off : Nat)
    (h1 : off = A.length + 8)
    (h2 : off < 2147483648)
    (h3 : rh (pre ++ (A ++ ([84, 65, 82, 0] ++ le32_enc off))) = none)
    (h4 : rh (A ++ ([84, 65, 82, 0] ++ le32_enc off)) = some ())
    (h5 : tag2.length = 4)
    (h6 : tag2 ≠ [84, 65, 82, 0])
    (h7 : rh (pre ++ (A ++ (tag2 ++ le32_enc off))) = none) :
    (tar_mount_base rh (pre ++ (A ++ ([84, 65, 82, 0] ++ le32_enc off)))
        = some pre.length
     ∧ (pre ++ (A ++ ([84, 65, 82, 0] ++ le32_enc off))).drop pre.length
        = A ++ ([84, 65, 82, 0] ++ le32_enc off))
    ∧ tar_mount_base rh (pre ++ (A ++ (tag2 ++ le32_enc off))) = none
    ∧ tar_mount rh true (pre ++ (A ++ (tag2 ++ le32_enc off)))
        = (none, (1, 1), (1, 1)) := by
  have hencl : (le32_enc off).length = 4 := by simp [le32_enc]
  have hdec : le32_dec (le32_enc off) = off := by
    have hlt : off < 4294967296 := by omega
    simp only [le32_enc, le32_dec]
    omega
  have hcint : as_c_int off = (off : Int) := by rw [as_c_int, if_pos h2]
  -- the good footer
  have hdropPre : (pre ++ (A ++ ([84, 65, 82, 0] ++ le32_enc off))).drop pre.length
      = A ++ ([84, 65, 82, 0] ++ le32_enc off) :=
    List.drop_left pre _
  have hn : (pre ++ (A ++ ([84, 65, 82, 0] ++ le32_enc off))).length
      = pre.length + A.length + 8 := by
    simp [hencl]
    omega
  have htail : (pre ++ (A ++ ([84, 65, 82, 0] ++ le32_enc off))).drop
      ((pre ++ (A ++ ([84, 65, 82, 0] ++ le32_enc off))).length - 8)
      = [84, 65, 82, 0] ++ le32_enc off := by
    rw [hn, ← List.append_assoc pre A]
    have h8 : pre.length + A.length + 8 - 8 = (pre ++ A).length := by simp
    rw [h8]
    exact List.drop_left (pre ++ A) _
  have hgood : tar_mount_base rh (pre ++ (A ++ ([84, 65, 82, 0] ++ le32_enc off)))
      = some pre.length := by
    unfold tar_mount_base
    rw [h3]
    simp only [htail]
    have htake : ([84, 65, 82, 0] ++ le32_enc off).take 4 = [84, 65, 82, 0] := rfl
    have hdrop4 : ([84, 65, 82, 0] ++ le32_enc off).drop 4 = le32_enc off := rfl
    rw [htake, hdrop4, hdec, hcint]
    have hcond : 8 ≤ (pre ++ (A ++ ([84, 65, 82, 0] ++ le32_enc off))).length
        ∧ ([84, 65, 82, 0] : List Nat) = [84, 65, 82, 0] := by
      refine ⟨by omega, rfl⟩
    rw [if_pos hcond, hn]
    have hpos : (0 : Int) ≤ ((pre.length + A.length + 8 : Nat) : Int) - (off : Int) := by
      push_cast
      omega
    rw [if_pos hpos]
    have hbase : (((pre.length + A.length + 8 : Nat) : Int) - (off : Int)).toNat
        = pre.length := by
      omega
    rw [hbase, hdropPre, h4]
  -- the corrupted footer
  have hdropPre2 : (pre ++ (A ++ (tag2 ++ le32_enc off))).drop pre.length
      = A ++ (tag2 ++ le32_enc off) :=
    List.drop_left pre _
  have hn2 : (pre ++ (A ++ (tag2 ++ le32_enc off))).length
      = pre.length + A.length + 8 := by
    simp [hencl, h5]
    omega
  have htail2 : (pre ++ (A ++ (tag2 ++ le32_enc off))).drop
      ((pre ++ (A ++ (tag2 ++ le32_enc off))).length - 8)
      = tag2 ++ le32_enc off := by
    rw [hn2, ← List.append_assoc pre A]
    have h8 : pre.length + A.length + 8 - 8 = (pre ++ A).length := by simp
    rw [h8]
    exact List.drop_left (pre ++ A) _
  have htake2 : (tag2 ++ le32_enc off).take 4 = tag2 := by
    rw [← h5]
    exact List.take_left tag2 _
  have hbad : tar_mount_base rh (pre ++ (A ++ (tag2 ++ le32_enc off))) = none := by
    unfold tar_mount_base
    rw [h7]
    simp only [htail2]
    rw [htake2]
    have hcond : ¬ (8 ≤ (pre ++ (A ++ (tag2 ++ le32_enc off))).length
        ∧ tag2 = [84, 65, 82, 0]) := by
      intro hc
      exact h6 hc.2
    rw [if_neg hcond]
    have hdrop0 : (pre ++ (A ++ (tag2 ++ le32_enc off))).drop 0
        = pre ++ (A ++ (tag2 ++ le32_enc off)) := List.drop_zero _
    rw [hdrop0, h7]
  refine ⟨⟨hgood, hdropPre⟩, hbad, ?_⟩
  rw [tar_mount, if_pos rfl, hbad]

theorem tarMount_trailing_offset_inst :
    (tar_mount_base c5rh ([9] ++ (c5arc ++ ([84, 65, 82, 0] ++ le32_enc 11)))
        = some 1
     ∧ ([9] ++ (c5arc ++ ([84, 65, 82, 0] ++ le32_enc 11))).drop 1
        = c5arc ++ ([84, 65, 82, 0] ++ le32_enc 11))
    ∧ tar_mount_base c5rh ([9] ++ (c5arc ++ ([0, 0, 0, 0] ++ le32_enc 11))) = none
    ∧ tar_mount c5rh true ([9] ++ (c5arc ++ ([0, 0, 0, 0] ++ le32_enc 11)))
        = (none, (1, 1), (1, 1)) :=
  tarMount_trailing_offset c5rh [9] c5arc [0, 0, 0, 0] 11
    (by decide) (by decide) (by decide) (by decide) (by decide) (by decide) (by decide)

/-! ### The path-overflow behaviour of the directory backend (C7)

`concat_and_get_file_type` hands `concat_path`'s failure code back
through the *file-type* channel.  The failure code is nonzero (it must
be, for the Lua binding to see failures), so on overflow
`dir_exists = (EFAILURE != TNONE)` is *true*: the overflowing name is
reported as existing, instead of the operation failing.  `isFile`,
`isDirectory` and `read` do fail, and no probe or open is attempted —
the traces are empty. -/

set_option maxRecDepth 8192 in
/-- C7: evaluated at a mountable 255-byte root and the empty relative
name (total `255 + 0 + 2 > MAX_PATH`): concatenation overflows and no
I/O is probed (empty probe and open traces), `isFile`/`isDirectory`
return false and `read` fails, but `dir_exists` returns *true* — the
code reports an overflowing path as existing instead of failing the
operation as the spec requires. -/
theorem dirOverflow_exists_bug :
    concat_path c7root "" = none
    ∧ dir_exists c7w c7root "" = true
    ∧ dir_isFile c7w c7root "" = false
    ∧ dir_isDirectory c7w c7root "" = false
    ∧ (dir_read c7w c7root "").1 = none
    ∧ (concat_and_get_file_type c7w c7root "").2 = []
    ∧ (dir_read c7w c7root "").2.1 = [] := by
  decide

/-! ### The handle leak of `dir_read` (C8) -/

/-- C8: `dir_read` contains no `fclose`.  Evaluated in a world where
`fopen` succeeds and `dmt_malloc` fails: the read fails (NULL), one file
handle was opened, and none was closed — the failure path leaks the open
`FILE*`, contradicting the spec's requirement that every failure branch
releases all partially acquired resources. -/
theorem dirRead_handle_leak :
    (dir_read c8w "root" "f").1 = none
    ∧ (dir_read c8w "root" "f").2.1 = ["root/f"]
    ∧ (dir_read c8w "root" "f").2.2 = [] := by
  decide

end LoveFS
